import Mathlib

set_option maxRecDepth 8000

/-!
Verification of the image-compositing core and edit-history model of
src/screenshot_editor.py.

The Python source manipulates PIL images.  A raster is embedded as an
explicit width/height pair together with a total pixel function; the PIL
primitives invoked by the source (Image.new, Image.putalpha,
ImageDraw.rounded_rectangle, ImageFilter.GaussianBlur, Image.resize,
Image.paste, Image.alpha_composite) are given executable models below.
The pixel arithmetic of blurring, resampling and blending is modelled by
deterministic integer formulas; no theorem in this file depends on those
interior pixel values — only on dimensions, on alpha replacement, and on
PIL's error behaviour, which are modelled exactly.
-/

/-- An 8-bit RGBA pixel.  Channel values are naturals; the source only ever
produces values in 0..255. -/
structure RGBA where
  r : Nat
  g : Nat
  b : Nat
  a : Nat
deriving DecidableEq

/-- A PIL RGBA image: an explicit size plus pixel data, read at coordinates
(x, y) with 0 ≤ x < width and 0 ≤ y < height. -/
structure Raster where
  width : Nat
  height : Nat
  data : Nat → Nat → RGBA

/-- Image.new(mode, (w, h), color): a constant-filled raster. -/
def imageNew (w h : Nat) (c : RGBA) : Raster := ⟨w, h, fun _ _ => c⟩

/-- Membership of pixel (x, y) in the rounded rectangle with bounding box
[0, 0, w, h] and corner radius ρ: inside the box except at the four corner
squares, where a quarter-disc test applies.  Computed over the integers. -/
def inRoundedRect (w h ρ x y : Nat) : Bool :=
  let xi : Int := x
  let yi : Int := y
  let wi : Int := w
  let hi : Int := h
  let ri : Int := ρ
  let inDisc : Int → Int → Bool := fun cx cy =>
    decide ((xi - cx) * (xi - cx) + (yi - cy) * (yi - cy) ≤ ri * ri)
  if xi < ri ∧ yi < ri then inDisc ri ri
  else if wi - ri < xi ∧ yi < ri then inDisc (wi - ri) ri
  else if xi < ri ∧ hi - ri < yi then inDisc ri (hi - ri)
  else if wi - ri < xi ∧ hi - ri < yi then inDisc (wi - ri) (hi - ri)
  else true

/-- Membership of pixel (x, y) in the ellipse inscribed in the box
[0, 0, w, h], centred at (w/2, h/2) with semi-axes w/2 and h/2, as the
exact integer test ((2x - w)h)^2 + ((2y - h)w)^2 ≤ (wh)^2. -/
def inEllipse (w h x y : Nat) : Bool :=
  let xi : Int := x
  let yi : Int := y
  let wi : Int := w
  let hi : Int := h
  decide (((2 * xi - wi) * hi) * ((2 * xi - wi) * hi) +
    ((2 * yi - hi) * wi) * ((2 * yi - hi) * wi) ≤ (wi * hi) * (wi * hi))

/-- The 'L'-mode mask drawn by ImageDraw.rounded_rectangle([0, 0, w, h], r,
fill 255) into a zero-initialised mask image (src/screenshot_editor.py
lines 189-191): 255 inside the drawn shape, 0 outside, following Pillow's
dispatch.  Pillow works on the corner diameter d = 2r and clamps it per
axis: if d ≥ w - 1 the left and right corner pairs are joined and d is
reset to w; if then d ≥ h - 1 the top and bottom pairs are joined and d is
reset to h; when both axes saturate it draws the ellipse inscribed in the
box instead, and when d = 0 the plain rectangle; otherwise the rounded
rectangle with corner radius d / 2.  The corner arcs of the last case are
modelled as exact quarter discs (the rasteriser's sub-pixel and
anti-aliasing detail is not relied upon by any theorem). -/
def rounded_rectangle_mask (w h r x y : Nat) : Nat :=
  let d0 := 2 * r
  let fullX := w ≤ d0 + 1
  let d1 := if fullX then w else d0
  let fullY := h ≤ d1 + 1
  let d2 := if fullY then h else d1
  if fullX ∧ fullY then (if inEllipse w h x y then 255 else 0)
  else if d2 = 0 then 255
  else if inRoundedRect w h (d2 / 2) x y then 255 else 0

/-- Image.putalpha(mask) (src line 193): destructively replaces the alpha
band of the image with the mask; the colour bands are kept. -/
def putalpha (img : Raster) (mask : Nat → Nat → Nat) : Raster :=
  ⟨img.width, img.height, fun x y => { img.data x y with a := mask x y }⟩

/-- round_image (src lines 185-194).  A non-positive radius returns the
input raster itself (the Python guard is corner_radius <= 0, which on the
naturals is radius = 0); otherwise a rounded-rectangle mask of the image's
size is drawn and written into the alpha band of a copy of the image. -/
def round_image (img : Raster) (cornerRadius : Nat) : Raster :=
  if cornerRadius = 0 then img
  else putalpha img (rounded_rectangle_mask img.width img.height cornerRadius)

/-- Coordinate clamped into [0, n). -/
def clampIdx (n : Nat) (i : Int) : Nat := (min (max 0 i) ((n : Int) - 1)).toNat

/-- Pixel read with edge clamping, used by the blur model. -/
def sampleClamped (img : Raster) (x y : Int) : RGBA :=
  img.data (clampIdx img.width x) (clampIdx img.height y)

/-- One output pixel of the blur model: the channel-wise mean of the
(2r+1) × (2r+1) window around (x, y), sampled with edge clamping. -/
def blurPixel (img : Raster) (radius x y : Nat) : RGBA :=
  let n := 2 * radius + 1
  let cells := (List.range n).flatMap fun dy =>
    (List.range n).map fun dx =>
      sampleClamped img ((x : Int) + dx - radius) ((y : Int) + dy - radius)
  let tot := n * n
  ⟨(cells.foldl (fun acc p => acc + p.r) 0) / tot,
   (cells.foldl (fun acc p => acc + p.g) 0) / tot,
   (cells.foldl (fun acc p => acc + p.b) 0) / tot,
   (cells.foldl (fun acc p => acc + p.a) 0) / tot⟩

/-- ImageFilter.GaussianBlur(radius) (src line 203), modelled as an
edge-clamped uniform convolution.  The only facts about the filter used by
any theorem are that it is a pure function and preserves the image size;
the exact Gaussian kernel is abstracted to the mean filter above. -/
def gaussianBlur (radius : Nat) (img : Raster) : Raster :=
  ⟨img.width, img.height, fun x y => blurPixel img radius x y⟩

/-- Image.resize((w, h), LANCZOS) followed by convert to RGBA
(src line 218).  Only the output size is relied upon by any theorem; the
Lanczos kernel is abstracted to coordinate sampling. -/
def resize (img : Raster) (w h : Nat) : Raster :=
  ⟨w, h, fun x y => img.data (x * img.width / w) (y * img.height / h)⟩

/-- Image.paste(src, (px, py)) with no mask (src lines 209-210): copies all
four bands of src over the target region; the base keeps its size and is
unchanged outside the pasted region. -/
def paste_at (base src : Raster) (px py : Nat) : Raster :=
  ⟨base.width, base.height, fun x y =>
    if px ≤ x ∧ x < px + src.width ∧ py ≤ y ∧ y < py + src.height then
      src.data (x - px) (y - py)
    else base.data x y⟩

/-- Image.paste(src, (px, py), src) with the RGBA source doubling as its own
mask (src line 229): the source's alpha band weights source against base on
every band inside the pasted region. -/
def paste_masked (base src : Raster) (px py : Nat) : Raster :=
  ⟨base.width, base.height, fun x y =>
    if px ≤ x ∧ x < px + src.width ∧ py ≤ y ∧ y < py + src.height then
      let f := src.data (x - px) (y - py)
      let b := base.data x y
      ⟨(f.r * f.a + b.r * (255 - f.a)) / 255,
       (f.g * f.a + b.g * (255 - f.a)) / 255,
       (f.b * f.a + b.b * (255 - f.a)) / 255,
       (f.a * f.a + b.a * (255 - f.a)) / 255⟩
    else base.data x y⟩

/-- Errors raised by the modelled PIL calls.  sizeMismatch is PIL's
ValueError (images do not match) from Image.alpha_composite;
recursionError stands for Python's RecursionError and is proved
unreachable for the fuel actually used (addBackgroundFuel_irrel). -/
inductive PilError where
  | sizeMismatch
  | recursionError
deriving DecidableEq

/-- Straight-alpha over-blend of pixel f onto pixel b, modelling the pixel
arithmetic of Image.alpha_composite.  No theorem depends on these values. -/
def overPixel (b f : RGBA) : RGBA :=
  let ao := f.a * 255 + b.a * (255 - f.a)
  if ao = 0 then ⟨0, 0, 0, 0⟩
  else ⟨(f.r * f.a * 255 + b.r * b.a * (255 - f.a)) / ao,
        (f.g * f.a * 255 + b.g * b.a * (255 - f.a)) / ao,
        (f.b * f.a * 255 + b.b * b.a * (255 - f.a)) / ao,
        ao / 255⟩

/-- Image.alpha_composite(im1, im2) (src lines 224-227): PIL raises
ValueError unless the two images agree in size (and mode; both are RGBA
here); otherwise it blends im2 over im1 pixelwise. -/
def alpha_composite (im1 im2 : Raster) : Except PilError Raster :=
  if im1.width = im2.width ∧ im1.height = im2.height then
    Except.ok ⟨im1.width, im1.height, fun x y => overPixel (im1.data x y) (im2.data x y)⟩
  else Except.error PilError.sizeMismatch

/-- The shadow layer as built at src line 202:
Image.new(RGBA, fg_image.size, (0, 0, 0, shadow_opacity)) — a constant
black fill whose alpha band is the raw shadow_opacity value at every pixel,
independent of the foreground's pixels. -/
def shadowBase (fg : Raster) (shadowOpacity : Nat) : Raster :=
  imageNew fg.width fg.height ⟨0, 0, 0, shadowOpacity⟩

/-- The background canvas of add_background (src lines 217-220): the resized
background image when bg_mode is the string image AND a background image is
set (Python truthiness: None is falsy, a PIL image is truthy); any other
combination falls through to a solid fill with the colour. -/
def background_layer (bgMode : String) (color : RGBA) (bgImage : Option Raster)
    (w h : Nat) : Raster :=
  match bgImage with
  | some bi => if bgMode = "image" then resize bi w h else imageNew w h color
  | none => imageNew w h color

/-- add_background (src lines 196-230).  The source is recursive: with
shadow_enabled set, the composite at lines 223-227 re-invokes
add_background on the foreground with a fully transparent colour, and that
inner call reverts to the Python default arguments shadow_enabled = True
and shadow_offset = (8, 8).  Python evaluates
Image.alpha_composite(back, shadow_canvas) before the recursive argument,
and that call raises ValueError whenever the shadow offset is not (0, 0)
because the two canvases differ in size; hence the dynamic call depth never
exceeds 2 before an exception aborts evaluation.  The embedding makes the
recursion structural through a fuel argument; addBackgroundFuel_irrel
proves that every fuel ≥ 2 computes the same result, so add_background
below (fuel 2) is the exact source behaviour. -/
def addBackgroundFuel : Nat → Raster → String → RGBA → Option Raster → Nat → Bool → Nat →
    Nat × Nat → Except PilError Raster
  | 0, _, _, _, _, _, _, _, _ => Except.error PilError.recursionError
  | fuel + 1, fg, bgMode, color, bgImage, padding, shadowEnabled, shadowOpacity,
    shadowOffset =>
    let newW := fg.width + 2 * padding
    let newH := fg.height + 2 * padding
    let back := background_layer bgMode color bgImage newW newH
    if shadowEnabled then
      let shadowBlur := gaussianBlur 10 (shadowBase fg shadowOpacity)
      let shadowW := fg.width + 2 * padding + shadowOffset.1
      let shadowH := fg.height + 2 * padding + shadowOffset.2
      let shadowCanvas :=
        paste_at (imageNew shadowW shadowH ⟨0, 0, 0, 0⟩) shadowBlur
          (padding + shadowOffset.1) (padding + shadowOffset.2)
      match alpha_composite back shadowCanvas with
      | Except.error e => Except.error e
      | Except.ok afterShadow =>
        match addBackgroundFuel fuel fg "color" ⟨0, 0, 0, 0⟩ none padding true 30 (8, 8) with
        | Except.error e => Except.error e
        | Except.ok transparentCopy =>
          match alpha_composite afterShadow transparentCopy with
          | Except.error e => Except.error e
          | Except.ok composed => Except.ok (paste_masked composed fg padding padding)
    else
      Except.ok (paste_masked back fg padding padding)

/-- add_background at the fuel that the recursion actually needs. -/
def add_background (fg : Raster) (bgMode : String) (color : RGBA) (bgImage : Option Raster)
    (padding : Nat) (shadowEnabled : Bool) (shadowOpacity : Nat) (shadowOffset : Nat × Nat) :
    Except PilError Raster :=
  addBackgroundFuel 2 fg bgMode color bgImage padding shadowEnabled shadowOpacity shadowOffset

/- ===================== basic facts about the stages ===================== -/

theorem background_layer_width (m : String) (c : RGBA) (bi : Option Raster) (w h : Nat) :
    (background_layer m c bi w h).width = w := by
  cases bi with
  | none => rfl
  | some bi =>
    by_cases hm : m = "image"
    · simp only [background_layer, if_pos hm, resize]
    · simp only [background_layer, if_neg hm, imageNew]

theorem background_layer_height (m : String) (c : RGBA) (bi : Option Raster) (w h : Nat) :
    (background_layer m c bi w h).height = h := by
  cases bi with
  | none => rfl
  | some bi =>
    by_cases hm : m = "image"
    · simp only [background_layer, if_pos hm, resize]
    · simp only [background_layer, if_neg hm, imageNew]

theorem alpha_composite_err (im1 im2 : Raster)
    (h : ¬(im1.width = im2.width ∧ im1.height = im2.height)) :
    alpha_composite im1 im2 = Except.error PilError.sizeMismatch := by
  unfold alpha_composite
  rw [if_neg h]

theorem alpha_composite_ok (im1 im2 : Raster)
    (h : im1.width = im2.width ∧ im1.height = im2.height) :
    alpha_composite im1 im2 =
      Except.ok ⟨im1.width, im1.height, fun x y => overPixel (im1.data x y) (im2.data x y)⟩ := by
  unfold alpha_composite
  rw [if_pos h]

/-- Pillow's dispatch when the corner diameter saturates the x-axis
(2r ≥ w - 1): the left and right corner pairs are joined and the result no
longer depends on the radius — the inscribed ellipse when the y-axis also
saturates, else the vertical stadium of radius w / 2. -/
theorem rounded_rectangle_mask_fullX (w h r x y : Nat) (hr : w ≤ 2 * r + 1) :
    rounded_rectangle_mask w h r x y =
      if h ≤ w + 1 then (if inEllipse w h x y then 255 else 0)
      else if w = 0 then 255
      else if inRoundedRect w h (w / 2) x y then 255 else 0 := by
  unfold rounded_rectangle_mask
  dsimp only
  simp only [if_pos hr]
  by_cases hfy : h ≤ w + 1
  · rw [if_pos (And.intro hr hfy), if_pos hfy]
  · rw [if_neg (fun hc => hfy hc.2)]
    simp only [if_neg hfy]

/-- Pillow's dispatch when the corner diameter saturates the y-axis only
(h - 1 ≤ 2r < w - 1): the top and bottom corner pairs are joined and the
result is the horizontal stadium of radius h / 2, independent of the
radius. -/
theorem rounded_rectangle_mask_notFullX (w h r x y : Nat)
    (hx : ¬w ≤ 2 * r + 1) (hy : h ≤ 2 * r + 1) :
    rounded_rectangle_mask w h r x y =
      if h = 0 then 255 else if inRoundedRect w h (h / 2) x y then 255 else 0 := by
  unfold rounded_rectangle_mask
  dsimp only
  simp only [if_neg hx]
  simp only [if_pos hy]
  rw [if_neg (fun hc => hx hc.1)]

/-- With the shadow disabled, add_background reduces to pasting the rounded
foreground onto the freshly built background canvas. -/
theorem add_background_noshadow (fg : Raster) (m : String) (c : RGBA) (bi : Option Raster)
    (p op : Nat) (off : Nat × Nat) :
    add_background fg m c bi p false op off =
      Except.ok (paste_masked (background_layer m c bi (fg.width + 2 * p) (fg.height + 2 * p))
        fg p p) := rfl

/-- The source's self-recursive call — transparent colour, but Python
default arguments shadow_enabled = True and shadow_offset = (8, 8) — always
raises PIL's size-mismatch error at its own first alpha_composite: the
background canvas measures fg + 2·padding while its shadow canvas measures
fg + 2·padding + 8. -/
theorem addBackgroundFuel_inner_err (fuel : Nat) (fg : Raster) (c : RGBA) (p : Nat) :
    addBackgroundFuel (fuel + 1) fg "color" c none p true 30 (8, 8) =
      Except.error PilError.sizeMismatch := by
  unfold addBackgroundFuel
  rw [if_pos rfl]
  dsimp only
  have herr : alpha_composite
      (background_layer "color" c none (fg.width + 2 * p) (fg.height + 2 * p))
      (paste_at (imageNew (fg.width + 2 * p + 8) (fg.height + 2 * p + 8) ⟨0, 0, 0, 0⟩)
        (gaussianBlur 10 (shadowBase fg 30)) (p + 8) (p + 8)) =
      Except.error PilError.sizeMismatch := by
    apply alpha_composite_err
    intro hcontra
    have hw := hcontra.1
    simp only [background_layer, imageNew, paste_at] at hw
    omega
  rw [herr]

/-- With the shadow enabled, add_background always raises the size-mismatch
error, for every foreground, mode, colour, padding, opacity and offset:
either the shadow canvas disagrees in size with the background canvas
(offset not (0, 0)), or else the self-recursive call does (it re-defaults
the offset to (8, 8)). -/
theorem add_background_shadow_err (fg : Raster) (m : String) (c : RGBA) (bi : Option Raster)
    (p op : Nat) (off : Nat × Nat) :
    add_background fg m c bi p true op off = Except.error PilError.sizeMismatch := by
  unfold add_background addBackgroundFuel
  rw [if_pos rfl]
  dsimp only
  have h1 : addBackgroundFuel 1 fg "color" ⟨0, 0, 0, 0⟩ none p true 30 (8, 8) =
      Except.error PilError.sizeMismatch := addBackgroundFuel_inner_err 0 fg ⟨0, 0, 0, 0⟩ p
  by_cases h : off.1 = 0 ∧ off.2 = 0
  · have hok := alpha_composite_ok
      (background_layer m c bi (fg.width + 2 * p) (fg.height + 2 * p))
      (paste_at (imageNew (fg.width + 2 * p + off.1) (fg.height + 2 * p + off.2) ⟨0, 0, 0, 0⟩)
        (gaussianBlur 10 (shadowBase fg op)) (p + off.1) (p + off.2))
      ⟨by simp only [background_layer_width, paste_at, imageNew]; omega,
       by simp only [background_layer_height, paste_at, imageNew]; omega⟩
    rw [hok, h1]
  · have herr := alpha_composite_err
      (background_layer m c bi (fg.width + 2 * p) (fg.height + 2 * p))
      (paste_at (imageNew (fg.width + 2 * p + off.1) (fg.height + 2 * p + off.2) ⟨0, 0, 0, 0⟩)
        (gaussianBlur 10 (shadowBase fg op)) (p + off.1) (p + off.2))
      (by
        intro hcontra
        obtain ⟨hw, hh⟩ := hcontra
        simp only [background_layer_width, paste_at, imageNew] at hw
        simp only [background_layer_height, paste_at, imageNew] at hh
        omega)
    rw [herr]

/-- The fuel is an artefact of the embedding only: every fuel that admits
the one dynamically reachable self-call computes the same value. -/
theorem addBackgroundFuel_irrel (n : Nat) (fg : Raster) (m : String) (c : RGBA)
    (bi : Option Raster) (p : Nat) (se : Bool) (op : Nat) (off : Nat × Nat) :
    addBackgroundFuel (n + 2) fg m c bi p se op off =
      addBackgroundFuel 2 fg m c bi p se op off := by
  show addBackgroundFuel ((n + 1) + 1) fg m c bi p se op off =
    addBackgroundFuel (1 + 1) fg m c bi p se op off
  unfold addBackgroundFuel
  cases se with
  | false => rfl
  | true =>
    rw [if_pos rfl, if_pos rfl]
    dsimp only
    have h1 : addBackgroundFuel 1 fg "color" ⟨0, 0, 0, 0⟩ none p true 30 (8, 8) =
        Except.error PilError.sizeMismatch := addBackgroundFuel_inner_err 0 fg ⟨0, 0, 0, 0⟩ p
    have h2 : addBackgroundFuel (n + 1) fg "color" ⟨0, 0, 0, 0⟩ none p true 30 (8, 8) =
        Except.error PilError.sizeMismatch := addBackgroundFuel_inner_err n fg ⟨0, 0, 0, 0⟩ p
    rw [h1, h2]

/- ===================== the editor state machine ===================== -/

/-- The rendering parameters held by ScreenshotEditor._setup_state
(src lines 355-372), i.e. the RenderConfig of the pipeline.  The shadow
offset is not part of the editor state: apply_effects never passes it, so
add_background always receives its default (8, 8). -/
structure RenderConfig where
  cornerRadius : Nat
  padding : Nat
  bgMode : String
  bgColor : RGBA
  bgImage : Option Raster
  shadowEnabled : Bool
  shadowOpacity : Nat

/-- One edit-history entry: the pre-mutation capture plus its
RenderConfig.  Modelled from the spec: the body of push_undo lies beyond
the truncated end of src/screenshot_editor.py; the spec (section 3,
Snapshot; section 4.4) records a (Capture, RenderConfig) pair.  The capture
is an Option because self.original_image is Optional in the source. -/
structure Snapshot where
  capture : Option Raster
  config : RenderConfig

/-- The mutable state of ScreenshotEditor (src lines 355-372), restricted
to the fields the compositing pipeline and the edit history read or
write. -/
structure EditorState where
  cornerRadius : Nat
  padding : Nat
  bgMode : String
  bgColor : RGBA
  bgImage : Option Raster
  originalImage : Option Raster
  finalImage : Option Raster
  undoStack : List Snapshot
  redoStack : List Snapshot
  shadowEnabled : Bool
  shadowOpacity : Nat

/-- The RenderConfig currently held by the editor state. -/
def current_config (s : EditorState) : RenderConfig :=
  ⟨s.cornerRadius, s.padding, s.bgMode, s.bgColor, s.bgImage,
   s.shadowEnabled, s.shadowOpacity⟩

/-- The initial state set up by _setup_state (src lines 355-372). -/
def initialState : EditorState :=
  { cornerRadius := 30, padding := 50, bgMode := "color",
    bgColor := ⟨255, 255, 255, 255⟩, bgImage := none, originalImage := none,
    finalImage := none, undoStack := [], redoStack := [],
    shadowEnabled := true, shadowOpacity := 30 }

/-- The compositing pipeline run by apply_effects (src lines 398-408):
round_image on the capture, then add_background (with the default shadow
offset (8, 8)), then a final round_image pass on the assembled canvas.
An error from any PIL call propagates. -/
def composePipeline (fg : Raster) (cfg : RenderConfig) : Except PilError Raster :=
  let rounded := round_image fg cfg.cornerRadius
  match add_background rounded cfg.bgMode cfg.bgColor cfg.bgImage cfg.padding
      cfg.shadowEnabled cfg.shadowOpacity (8, 8) with
  | Except.error e => Except.error e
  | Except.ok withBg => Except.ok (round_image withBg cfg.cornerRadius)

/-- apply_effects (src lines 395-409): a no-op without an active capture;
otherwise recomputes the final image from the immutable original capture.
If a PIL call raises (which the shadow path always does), the Python
exception propagates before self.final_image is assigned, so the state is
returned with final_image unchanged. -/
def apply_effects (s : EditorState) : EditorState :=
  match s.originalImage with
  | none => s
  | some orig =>
    match composePipeline orig (current_config s) with
    | Except.ok final => { s with finalImage := some final }
    | Except.error _ => s

/-- Modelled from the spec: the body of push_undo lies beyond the truncated
end of src/screenshot_editor.py (only its caller take_screenshot at lines
385-388 is visible).  Per spec section 4.4, pushUndo snapshots the
pre-mutation Capture + RenderConfig onto the undo stack and clears the redo
stack. -/
def push_undo (s : EditorState) : EditorState :=
  { s with undoStack := ⟨s.originalImage, current_config s⟩ :: s.undoStack,
           redoStack := [] }

/-- take_screenshot (src lines 385-393): if a prior capture exists, the
pre-mutation state is pushed onto the undo stack and the redo stack is
cleared; then the active capture is replaced by the new screen raster and
apply_effects re-renders.  The capture interface itself is external
(spec section 4.5); the captured raster arrives as the argument. -/
def take_screenshot (cap : Raster) (s : EditorState) : EditorState :=
  let s1 := if s.originalImage.isSome then
      let pushed := push_undo s
      { pushed with redoStack := [] }
    else s
  apply_effects { s1 with originalImage := some cap }

/-- Installing a history snapshot as the current state: the snapshot's
capture and RenderConfig replace the live ones. -/
def install_snapshot (sn : Snapshot) (s : EditorState) : EditorState :=
  { s with originalImage := sn.capture,
           cornerRadius := sn.config.cornerRadius,
           padding := sn.config.padding,
           bgMode := sn.config.bgMode,
           bgColor := sn.config.bgColor,
           bgImage := sn.config.bgImage,
           shadowEnabled := sn.config.shadowEnabled,
           shadowOpacity := sn.config.shadowOpacity }

/-- Modelled from the spec: the body of undo lies beyond the truncated end
of src/screenshot_editor.py.  Per spec section 4.4: a no-op on an empty
undo stack; otherwise pops the top snapshot, pushes the current state onto
the redo stack, installs the popped snapshot as current and re-renders. -/
def undo (s : EditorState) : EditorState :=
  match s.undoStack with
  | [] => s
  | sn :: rest =>
    apply_effects (install_snapshot sn
      { s with undoStack := rest,
               redoStack := ⟨s.originalImage, current_config s⟩ :: s.redoStack })

/-- Modelled from the spec: the symmetric inverse of undo (spec section
4.4); a no-op on an empty redo stack. -/
def redo (s : EditorState) : EditorState :=
  match s.redoStack with
  | [] => s
  | sn :: rest =>
    apply_effects (install_snapshot sn
      { s with redoStack := rest,
               undoStack := ⟨s.originalImage, current_config s⟩ :: s.undoStack })

/-- Modelled from the spec: the slider callback for the corner radius (its
body lies beyond the truncated end of the source); a parameter change
mutates the RenderConfig in place and triggers a full re-render, without
touching history (spec sections 2 and 4.4). -/
def on_radius_changed (r : Nat) (s : EditorState) : EditorState :=
  apply_effects { s with cornerRadius := r }

/-- Modelled from the spec: the padding slider callback, as for
on_radius_changed. -/
def on_padding_changed (p : Nat) (s : EditorState) : EditorState :=
  apply_effects { s with padding := p }

/-- Modelled from the spec: pick_bg_color (body beyond the truncation)
stores the chosen colour, selects solid-colour mode and re-renders. -/
def pick_bg_color (c : RGBA) (s : EditorState) : EditorState :=
  apply_effects { s with bgMode := "color", bgColor := c }

/-- Modelled from the spec: pick_bg_image (body beyond the truncation)
stores the loaded raster, selects image mode and re-renders. -/
def pick_bg_image (img : Raster) (s : EditorState) : EditorState :=
  apply_effects { s with bgMode := "image", bgImage := some img }

/-- Modelled from the spec: the ShadowControls callback (src lines 159-163
feed it; the receiving on_shadow_changed lies beyond the truncation) stores
the toggle and opacity and re-renders. -/
def on_shadow_changed (enabled : Bool) (opacity : Nat) (s : EditorState) : EditorState :=
  apply_effects { s with shadowEnabled := enabled, shadowOpacity := opacity }

/-- Cropping the capture to the box [x0, y0, x1, y1]. -/
def crop_raster (img : Raster) (x0 y0 x1 y1 : Nat) : Raster :=
  ⟨x1 - x0, y1 - y0, fun x y => img.data (x0 + x) (y0 + y)⟩

/-- Modelled from the spec: the crop-commit mouse handler lies beyond the
truncated end of the source.  Per spec section 2, the edit history
captures state around a crop commit exactly as around a new capture:
push the pre-mutation snapshot, clear redo, replace the capture with the
cropped raster, re-render; a no-op without an active capture. -/
def crop_commit (x0 y0 x1 y1 : Nat) (s : EditorState) : EditorState :=
  match s.originalImage with
  | none => s
  | some orig =>
    let pushed := push_undo s
    apply_effects { pushed with redoStack := [],
                                originalImage := some (crop_raster orig x0 y0 x1 y1) }

/-- One user action of the editor, as wired to the UI (src lines 292-383):
a capture, undo, redo, a parameter change, or a crop commit. -/
inductive Step : EditorState → EditorState → Prop where
  | capture (s : EditorState) (cap : Raster) : Step s (take_screenshot cap s)
  | undoStep (s : EditorState) : Step s (undo s)
  | redoStep (s : EditorState) : Step s (redo s)
  | radius (s : EditorState) (r : Nat) : Step s (on_radius_changed r s)
  | paddingStep (s : EditorState) (p : Nat) : Step s (on_padding_changed p s)
  | bgColorStep (s : EditorState) (c : RGBA) : Step s (pick_bg_color c s)
  | bgImageStep (s : EditorState) (img : Raster) : Step s (pick_bg_image img s)
  | shadowStep (s : EditorState) (e : Bool) (o : Nat) : Step s (on_shadow_changed e o s)
  | cropStep (s : EditorState) (x0 y0 x1 y1 : Nat) : Step s (crop_commit x0 y0 x1 y1 s)

/-- States the editor can be in after any sequence of user actions from
start-up. -/
inductive Reachable : EditorState → Prop where
  | init : Reachable initialState
  | step {s t : EditorState} : Reachable s → Step s t → Reachable t

/- ============ projection lemmas for the state-machine proofs ============ -/

theorem apply_effects_originalImage (s : EditorState) :
    (apply_effects s).originalImage = s.originalImage := by
  unfold apply_effects
  cases horig : s.originalImage with
  | none => exact horig
  | some orig =>
    dsimp only
    cases composePipeline orig (current_config s) with
    | ok final => rfl
    | error e => exact horig

theorem apply_effects_undoStack (s : EditorState) :
    (apply_effects s).undoStack = s.undoStack := by
  unfold apply_effects
  cases horig : s.originalImage with
  | none => rfl
  | some orig =>
    dsimp only
    cases composePipeline orig (current_config s) with
    | ok final => rfl
    | error e => rfl

theorem apply_effects_redoStack (s : EditorState) :
    (apply_effects s).redoStack = s.redoStack := by
  unfold apply_effects
  cases horig : s.originalImage with
  | none => rfl
  | some orig =>
    dsimp only
    cases composePipeline orig (current_config s) with
    | ok final => rfl
    | error e => rfl

theorem take_screenshot_originalImage (cap : Raster) (s : EditorState) :
    (take_screenshot cap s).originalImage = some cap := by
  unfold take_screenshot
  rw [apply_effects_originalImage]

theorem take_screenshot_undoStack_some (cap : Raster) (s : EditorState) (c : Raster)
    (h : s.originalImage = some c) :
    (take_screenshot cap s).undoStack = ⟨some c, current_config s⟩ :: s.undoStack := by
  unfold take_screenshot
  rw [apply_effects_undoStack, if_pos (by rw [h]; rfl)]
  show (⟨s.originalImage, current_config s⟩ : Snapshot) :: s.undoStack = _
  rw [h]

theorem take_screenshot_redoStack_some (cap : Raster) (s : EditorState)
    (h : s.originalImage.isSome = true) :
    (take_screenshot cap s).redoStack = [] := by
  unfold take_screenshot
  rw [apply_effects_redoStack, if_pos h]

theorem take_screenshot_undoStack_none (cap : Raster) (s : EditorState)
    (h : s.originalImage = none) :
    (take_screenshot cap s).undoStack = s.undoStack := by
  unfold take_screenshot
  rw [apply_effects_undoStack, if_neg (by rw [h]; exact Bool.false_ne_true)]

theorem take_screenshot_redoStack_none (cap : Raster) (s : EditorState)
    (h : s.originalImage = none) :
    (take_screenshot cap s).redoStack = s.redoStack := by
  unfold take_screenshot
  rw [apply_effects_redoStack, if_neg (by rw [h]; exact Bool.false_ne_true)]

theorem undo_nil (s : EditorState) (h : s.undoStack = []) : undo s = s := by
  unfold undo
  rw [h]

theorem undo_cons (s : EditorState) (sn : Snapshot) (rest : List Snapshot)
    (h : s.undoStack = sn :: rest) :
    (undo s).originalImage = sn.capture ∧ (undo s).undoStack = rest ∧
    (undo s).redoStack = ⟨s.originalImage, current_config s⟩ :: s.redoStack := by
  unfold undo
  rw [h]
  refine ⟨?_, ?_, ?_⟩
  · rw [apply_effects_originalImage]; rfl
  · rw [apply_effects_undoStack]; rfl
  · rw [apply_effects_redoStack]; rfl

theorem redo_nil (s : EditorState) (h : s.redoStack = []) : redo s = s := by
  unfold redo
  rw [h]

theorem redo_cons (s : EditorState) (sn : Snapshot) (rest : List Snapshot)
    (h : s.redoStack = sn :: rest) :
    (redo s).originalImage = sn.capture ∧
    (redo s).undoStack = ⟨s.originalImage, current_config s⟩ :: s.undoStack ∧
    (redo s).redoStack = rest := by
  unfold redo
  rw [h]
  refine ⟨?_, ?_, ?_⟩
  · rw [apply_effects_originalImage]; rfl
  · rw [apply_effects_undoStack]; rfl
  · rw [apply_effects_redoStack]; rfl

theorem crop_commit_noop (x0 y0 x1 y1 : Nat) (s : EditorState)
    (h : s.originalImage = none) : crop_commit x0 y0 x1 y1 s = s := by
  unfold crop_commit
  rw [h]

theorem crop_commit_some (x0 y0 x1 y1 : Nat) (s : EditorState) (orig : Raster)
    (h : s.originalImage = some orig) :
    (crop_commit x0 y0 x1 y1 s).originalImage = some (crop_raster orig x0 y0 x1 y1) ∧
    (crop_commit x0 y0 x1 y1 s).undoStack = ⟨some orig, current_config s⟩ :: s.undoStack ∧
    (crop_commit x0 y0 x1 y1 s).redoStack = [] := by
  unfold crop_commit
  rw [h]
  refine ⟨?_, ?_, ?_⟩
  · rw [apply_effects_originalImage]
  · rw [apply_effects_undoStack]
    show (⟨s.originalImage, current_config s⟩ : Snapshot) :: s.undoStack = _
    rw [h]
  · rw [apply_effects_redoStack]

/- ===================== the edit-history invariant ===================== -/

/-- The editor-state invariant maintained by every user action: without an
active capture the redo stack is empty; every history snapshot carries an
actual capture; a non-empty undo stack implies an active capture. -/
def EditorInv (s : EditorState) : Prop :=
  (s.originalImage = none → s.redoStack = []) ∧
  (∀ sn ∈ s.undoStack, sn.capture.isSome = true) ∧
  (∀ sn ∈ s.redoStack, sn.capture.isSome = true) ∧
  (s.undoStack ≠ [] → s.originalImage.isSome = true)

theorem EditorInv_of_projections {s t : EditorState}
    (h1 : t.originalImage = s.originalImage) (h2 : t.undoStack = s.undoStack)
    (h3 : t.redoStack = s.redoStack) (hs : EditorInv s) : EditorInv t := by
  obtain ⟨i1, i2, i3, i4⟩ := hs
  refine ⟨?_, ?_, ?_, ?_⟩
  · intro hn; rw [h3]; exact i1 (by rw [← h1]; exact hn)
  · intro sn hsn; exact i2 sn (by rw [← h2]; exact hsn)
  · intro sn hsn; exact i3 sn (by rw [← h3]; exact hsn)
  · intro hne; rw [h1]; exact i4 (by rw [← h2]; exact hne)

theorem EditorInv_config_step (s t : EditorState)
    (h1 : t.originalImage = s.originalImage) (h2 : t.undoStack = s.undoStack)
    (h3 : t.redoStack = s.redoStack) (hs : EditorInv s) : EditorInv (apply_effects t) := by
  refine EditorInv_of_projections ?_ ?_ ?_ hs
  · rw [apply_effects_originalImage]; exact h1
  · rw [apply_effects_undoStack]; exact h2
  · rw [apply_effects_redoStack]; exact h3

theorem EditorInv_take_screenshot (s : EditorState) (cap : Raster) (h : EditorInv s) :
    EditorInv (take_screenshot cap s) := by
  obtain ⟨i1, i2, i3, i4⟩ := h
  cases horig : s.originalImage with
  | none =>
    refine ⟨?_, ?_, ?_, ?_⟩
    · intro hn
      rw [take_screenshot_originalImage] at hn
      exact Option.noConfusion hn
    · intro sn hsn
      rw [take_screenshot_undoStack_none cap s horig] at hsn
      exact i2 sn hsn
    · intro sn hsn
      rw [take_screenshot_redoStack_none cap s horig] at hsn
      exact i3 sn hsn
    · intro hne
      rw [take_screenshot_originalImage]
      rfl
  | some c =>
    have hsome : s.originalImage.isSome = true := by rw [horig]; rfl
    refine ⟨?_, ?_, ?_, ?_⟩
    · intro hn
      rw [take_screenshot_originalImage] at hn
      exact Option.noConfusion hn
    · intro sn hsn
      rw [take_screenshot_undoStack_some cap s c horig] at hsn
      rcases List.mem_cons.mp hsn with heq | htail
      · rw [heq]; rfl
      · exact i2 sn htail
    · intro sn hsn
      rw [take_screenshot_redoStack_some cap s hsome] at hsn
      exact absurd hsn (List.not_mem_nil sn)
    · intro hne
      rw [take_screenshot_originalImage]
      rfl

theorem EditorInv_undo (s : EditorState) (h : EditorInv s) : EditorInv (undo s) := by
  obtain ⟨i1, i2, i3, i4⟩ := h
  cases hstack : s.undoStack with
  | nil => rw [undo_nil s hstack]; exact ⟨i1, i2, i3, i4⟩
  | cons sn rest =>
    obtain ⟨ho, hu, hr⟩ := undo_cons s sn rest hstack
    have hsn : sn.capture.isSome = true :=
      i2 sn (by rw [hstack]; exact List.mem_cons_self sn rest)
    refine ⟨?_, ?_, ?_, ?_⟩
    · intro hn
      rw [ho] at hn
      rw [hn] at hsn
      exact Bool.noConfusion hsn
    · intro x hx
      rw [hu] at hx
      exact i2 x (by rw [hstack]; exact List.mem_cons_of_mem sn hx)
    · intro x hx
      rw [hr] at hx
      rcases List.mem_cons.mp hx with heq | htail
      · rw [heq]
        exact i4 (by rw [hstack]; exact List.cons_ne_nil sn rest)
      · exact i3 x htail
    · intro hne
      rw [ho]
      exact hsn

theorem EditorInv_redo (s : EditorState) (h : EditorInv s) : EditorInv (redo s) := by
  obtain ⟨i1, i2, i3, i4⟩ := h
  cases hstack : s.redoStack with
  | nil => rw [redo_nil s hstack]; exact ⟨i1, i2, i3, i4⟩
  | cons sn rest =>
    obtain ⟨ho, hu, hr⟩ := redo_cons s sn rest hstack
    have horig : s.originalImage.isSome = true := by
      cases hcase : s.originalImage with
      | some c => rfl
      | none =>
        rw [i1 hcase] at hstack
        exact List.noConfusion hstack
    have hsn : sn.capture.isSome = true :=
      i3 sn (by rw [hstack]; exact List.mem_cons_self sn rest)
    refine ⟨?_, ?_, ?_, ?_⟩
    · intro hn
      rw [ho] at hn
      rw [hn] at hsn
      exact Bool.noConfusion hsn
    · intro x hx
      rw [hu] at hx
      rcases List.mem_cons.mp hx with heq | htail
      · rw [heq]; exact horig
      · exact i2 x htail
    · intro x hx
      rw [hr] at hx
      exact i3 x (by rw [hstack]; exact List.mem_cons_of_mem sn hx)
    · intro hne
      rw [ho]
      exact hsn

theorem EditorInv_crop_commit (x0 y0 x1 y1 : Nat) (s : EditorState) (h : EditorInv s) :
    EditorInv (crop_commit x0 y0 x1 y1 s) := by
  obtain ⟨i1, i2, i3, i4⟩ := h
  cases horig : s.originalImage with
  | none => rw [crop_commit_noop x0 y0 x1 y1 s horig]; exact ⟨i1, i2, i3, i4⟩
  | some orig =>
    obtain ⟨ho, hu, hr⟩ := crop_commit_some x0 y0 x1 y1 s orig horig
    refine ⟨?_, ?_, ?_, ?_⟩
    · intro hn
      rw [ho] at hn
      exact Option.noConfusion hn
    · intro x hx
      rw [hu] at hx
      rcases List.mem_cons.mp hx with heq | htail
      · rw [heq]; rfl
      · exact i2 x htail
    · intro x hx
      rw [hr] at hx
      exact absurd hx (List.not_mem_nil x)
    · intro hne
      rw [ho]
      rfl

/-- Every reachable editor state satisfies the edit-history invariant. -/
theorem reachable_inv {s : EditorState} (h : Reachable s) : EditorInv s := by
  induction h with
  | init =>
    refine ⟨fun _ => rfl, ?_, ?_, ?_⟩
    · intro sn hsn; exact absurd hsn (List.not_mem_nil sn)
    · intro sn hsn; exact absurd hsn (List.not_mem_nil sn)
    · intro hne; exact absurd rfl hne
  | step hr hstep ih =>
    cases hstep with
    | capture cap => exact EditorInv_take_screenshot _ cap ih
    | undoStep => exact EditorInv_undo _ ih
    | redoStep => exact EditorInv_redo _ ih
    | radius r => exact EditorInv_config_step _ _ rfl rfl rfl ih
    | paddingStep p => exact EditorInv_config_step _ _ rfl rfl rfl ih
    | bgColorStep c => exact EditorInv_config_step _ _ rfl rfl rfl ih
    | bgImageStep img => exact EditorInv_config_step _ _ rfl rfl rfl ih
    | shadowStep e o => exact EditorInv_config_step _ _ rfl rfl rfl ih
    | cropStep x0 y0 x1 y1 => exact EditorInv_crop_commit x0 y0 x1 y1 _ ih

/-- A run of the re-render pipeline of apply_effects on a foreground and a
configuration: round_image is applied to the capture and the result is
composited by add_background with the default shadow offset (8, 8); the run
yields an output only when add_background returns normally. -/
inductive PipelineRun (fg : Raster) (cfg : RenderConfig) : Raster → Prop where
  | run (rounded out : Raster)
      (hround : round_image fg cfg.cornerRadius = rounded)
      (hbg : add_background rounded cfg.bgMode cfg.bgColor cfg.bgImage cfg.padding
        cfg.shadowEnabled cfg.shadowOpacity (8, 8) = Except.ok out) :
      PipelineRun fg cfg out

/- ===================== concrete rasters for the claims ===================== -/

/-- A 1×1 opaque raster (C1 counterexample input). -/
def cxFgA : Raster := ⟨1, 1, fun _ _ => ⟨10, 20, 30, 255⟩⟩

/-- A 1×1 opaque raster (C2 failing input). -/
def cxFgB : Raster := ⟨1, 1, fun _ _ => ⟨0, 0, 255, 255⟩⟩

/-- A 2×1 opaque raster (C7 counterexample input). -/
def cxFgC : Raster := ⟨2, 1, fun _ _ => ⟨1, 1, 1, 255⟩⟩

/-- A 3×3 raster whose centre pixel is fully transparent (C3
counterexample input). -/
def cxAlphaR : Raster :=
  ⟨3, 3, fun x y => if x = 1 ∧ y = 1 then ⟨9, 9, 9, 0⟩ else ⟨9, 9, 9, 200⟩⟩

/-- A 4×4 half-transparent raster (C3 witness input). -/
def maskWitnessR : Raster := ⟨4, 4, fun _ _ => ⟨7, 7, 7, 50⟩⟩

/-- A 10×4 opaque raster (C5 counterexample input). -/
def cxWideR : Raster := ⟨10, 4, fun _ _ => ⟨5, 5, 5, 77⟩⟩

/-- A 4×4 raster (C5 witness input). -/
def clampWitnessR : Raster := ⟨4, 4, fun _ _ => ⟨7, 8, 9, 10⟩⟩

/-- A 1×1 fully transparent foreground (C6 counterexample input). -/
def cxTranspFg : Raster := ⟨1, 1, fun _ _ => ⟨50, 60, 70, 0⟩⟩

/- ===================== the claims ===================== -/

/-- C1 (amended): with the shadow disabled, add_background returns a raster
of size (fgW + 2·padding, fgH + 2·padding); with the shadow enabled, the
source never returns a raster at all — for every foreground, mode, colour,
padding, opacity and offset it raises PIL's size-mismatch ValueError,
either at the composite of the background canvas against the larger shadow
canvas, or (offset (0, 0)) inside its self-recursive call, which
re-defaults the offset to (8, 8). -/
theorem add_background_size (fg : Raster) (m : String) (c : RGBA) (bi : Option Raster)
    (p op : Nat) (off : Nat × Nat) :
    (∃ out, add_background fg m c bi p false op off = Except.ok out ∧
      out.width = fg.width + 2 * p ∧ out.height = fg.height + 2 * p) ∧
    add_background fg m c bi p true op off = Except.error PilError.sizeMismatch := by
  refine ⟨⟨_, add_background_noshadow fg m c bi p op off, ?_, ?_⟩,
    add_background_shadow_err fg m c bi p op off⟩
  · exact background_layer_width m c bi (fg.width + 2 * p) (fg.height + 2 * p)
  · exact background_layer_height m c bi (fg.width + 2 * p) (fg.height + 2 * p)

/-- C1 counterexample: at a concrete 1×1 foreground with padding 20, shadow
enabled and offset (8, 8), add_background produces no output raster (it
raises), so in particular no raster of the claimed size 1 + 2·20 + 8. -/
theorem add_background_size_cx :
    ¬ ∃ out, add_background cxFgA "color" ⟨255, 255, 255, 255⟩ none 20 true 30 (8, 8) =
        Except.ok out ∧ out.width = 1 + 2 * 20 + 8 ∧ out.height = 1 + 2 * 20 + 8 := by
  intro hex
  obtain ⟨out, hout, -, -⟩ := hex
  rw [add_background_shadow_err] at hout
  exact Except.noConfusion hout

/-- C2: evaluating add_background at a concrete well-formed 1×1 raster with
the default shadow configuration raises PIL's size-mismatch ValueError
instead of returning a raster: the 11×11 background canvas is
alpha-composited against the 19×19 shadow canvas. -/
theorem add_background_shadow_raises :
    add_background cxFgB "color" ⟨255, 255, 255, 255⟩ none 5 true 30 (8, 8) =
      Except.error PilError.sizeMismatch := rfl

/-- C3 counterexample: the centre pixel of a 3×3 raster is fully
transparent on input and fully opaque after round_image with radius 1 —
putalpha replaces the alpha band with the mask instead of multiplying the
two, so pre-existing transparency is destroyed. -/
theorem round_image_overwrites_alpha_cx :
    (cxAlphaR.data 1 1).a = 0 ∧ ((round_image cxAlphaR 1).data 1 1).a = 255 :=
  ⟨rfl, rfl⟩

/-- C3 (amended): for every positive radius, every pixel of round_image's
output keeps the input's colour bands but takes its alpha from the
rounded-rectangle mask alone — a destructive overwrite, independent of the
input's alpha. -/
theorem round_image_alpha_is_mask (img : Raster) (ρ x y : Nat) (h : 0 < ρ) :
    (round_image img ρ).data x y =
      { img.data x y with a := rounded_rectangle_mask img.width img.height ρ x y } := by
  unfold round_image
  rw [if_neg (Nat.pos_iff_ne_zero.mp h)]
  rfl

/-- C3 witness: the amended theorem applied at a concrete raster and
radius. -/
theorem round_image_alpha_is_mask_witness :
    (0 : Nat) < 2 ∧ (round_image maskWitnessR 2).data 0 0 =
      { maskWitnessR.data 0 0 with
        a := rounded_rectangle_mask maskWitnessR.width maskWitnessR.height 2 0 0 } :=
  ⟨by decide, round_image_alpha_is_mask maskWitnessR 2 0 0 (by decide)⟩

/-- C4: round_image with radius 0 returns the input raster itself (src
lines 186-187). -/
theorem round_image_zero_radius_id (img : Raster) : round_image img 0 = img := rfl

/-- C5 counterexample: on a 10×4 raster, radius 5 ≥ min(10, 4) / 2 = 2, but
the corner diameter 10 saturates both axes (2·5 ≥ 10 - 1), so Pillow draws
the ellipse inscribed in [0, 0, 10, 4], while radius 2 draws the radius-2
stadium; at pixel (2, 0) the masks differ (0 against 255), so after
putalpha the two outputs differ. -/
theorem round_image_clamp_cx :
    min cxWideR.width cxWideR.height / 2 ≤ 5 ∧
    round_image cxWideR 5 ≠ round_image cxWideR (min cxWideR.width cxWideR.height / 2) := by
  refine ⟨by decide, fun heq => ?_⟩
  have halpha := congrArg (fun t => (t.data 2 0).a) heq
  exact absurd halpha (by decide)

/-- C5 (amended): the clamping law holds for every radius ≥ min(w, h) / 2
(with min(w, h) / 2 positive) as long as the corner diameter does not
saturate the x-axis beyond what radius min(w, h) / 2 does: when w ≤ h the
x-axis saturates already at min(w, h) / 2 and every larger radius gives the
identical output, and when w > h every radius with 2ρ + 1 < w gives the
radius-min(w, h)/2 stadium.  Outside this domain the law genuinely fails:
for w > h a radius with 2ρ + 1 ≥ w switches Pillow to the inscribed
ellipse (the counterexample), and for min(w, h) / 2 = 0 radius 0
short-circuits while a positive radius still rewrites the alpha band. -/
theorem round_image_clamp_law (img : Raster) (ρ : Nat)
    (h0 : 0 < min img.width img.height / 2) (h : min img.width img.height / 2 ≤ ρ)
    (hband : img.width ≤ img.height ∨ 2 * ρ + 1 < img.width) :
    round_image img ρ = round_image img (min img.width img.height / 2) := by
  have hmask : rounded_rectangle_mask img.width img.height ρ =
      rounded_rectangle_mask img.width img.height (min img.width img.height / 2) := by
    funext x y
    rcases hband with hle | hlt
    · have hmin : min img.width img.height = img.width := Nat.min_eq_left hle
      have h1 : img.width ≤ 2 * ρ + 1 := by omega
      have h2 : img.width ≤ 2 * (min img.width img.height / 2) + 1 := by omega
      rw [rounded_rectangle_mask_fullX img.width img.height ρ x y h1,
          rounded_rectangle_mask_fullX img.width img.height
            (min img.width img.height / 2) x y h2]
    · have hmin : min img.width img.height = img.height := by
        rcases Nat.le_total img.width img.height with hWH | hHW
        · have := Nat.min_eq_left hWH
          omega
        · exact Nat.min_eq_right hHW
      have h1 : ¬img.width ≤ 2 * ρ + 1 := by omega
      have h1y : img.height ≤ 2 * ρ + 1 := by omega
      have h2 : ¬img.width ≤ 2 * (min img.width img.height / 2) + 1 := by omega
      have h2y : img.height ≤ 2 * (min img.width img.height / 2) + 1 := by omega
      rw [rounded_rectangle_mask_notFullX img.width img.height ρ x y h1 h1y,
          rounded_rectangle_mask_notFullX img.width img.height
            (min img.width img.height / 2) x y h2 h2y]
  unfold round_image
  rw [if_neg (by omega : ¬ρ = 0), if_neg (by omega : ¬min img.width img.height / 2 = 0),
    hmask]

/-- C5 witness: the amended clamping law applied at a concrete 4×4 raster
with radius 9 ≥ min(4, 4) / 2 = 2 (square, so the x-axis side of the band
condition holds). -/
theorem round_image_clamp_law_witness :
    (0 < min clampWitnessR.width clampWitnessR.height / 2 ∧
      min clampWitnessR.width clampWitnessR.height / 2 ≤ 9 ∧
      clampWitnessR.width ≤ clampWitnessR.height) ∧
    round_image clampWitnessR 9 =
      round_image clampWitnessR (min clampWitnessR.width clampWitnessR.height / 2) :=
  ⟨⟨by decide, by decide, by decide⟩,
   round_image_clamp_law clampWitnessR 9 (by decide) (by decide) (Or.inl (by decide))⟩

/-- C6 counterexample: a fully transparent 1×1 foreground at opacity 100.
The claim requires shadow alpha 0 there (a transparent foreground pixel
casts no shadow) and alpha 255 after scaling 0-100 to 0-255; the source's
layer carries alpha 100 — unscaled and unmasked. -/
theorem shadow_layer_cx :
    (cxTranspFg.data 0 0).a = 0 ∧ ((shadowBase cxTranspFg 100).data 0 0).a = 100 :=
  ⟨rfl, rfl⟩

/-- C6 (amended): the shadow layer built at src line 202 is a constant
black fill of exactly the foreground's size whose alpha band is the raw
shadow_opacity value at every pixel — no 0-100 to 0-255 rescaling and no
masking by the foreground's alpha shape. -/
theorem shadow_layer_uniform (fg : Raster) (op x y : Nat) :
    (shadowBase fg op).data x y = ⟨0, 0, 0, op⟩ ∧
    (shadowBase fg op).width = fg.width ∧ (shadowBase fg op).height = fg.height :=
  ⟨rfl, rfl, rfl⟩

/-- C7 (amended): with background_mode image and no background image set,
add_background computes exactly what solid-colour mode computes on the same
inputs (the fallback at src lines 217-220), and it returns normally
whenever the shadow is disabled; with the shadow enabled it raises the same
size-mismatch error as every other mode (the shadow defect of C2), so the
claimed never-raises holds only relative to shadow-disabled
configurations. -/
theorem image_mode_no_image_fallback (fg : Raster) (c : RGBA) (p op : Nat) (se : Bool)
    (off : Nat × Nat) :
    add_background fg "image" c none p se op off =
      add_background fg "color" c none p se op off ∧
    ∃ out, add_background fg "image" c none p false op off = Except.ok out :=
  ⟨rfl, ⟨_, add_background_noshadow fg "image" c none p op off⟩⟩

/-- C7 counterexample: a concrete configuration with background_mode image,
no background image and the shadow enabled makes add_background raise
rather than return — refuting the claimed never-errors on this input
class. -/
theorem image_mode_fallback_cx :
    add_background cxFgC "image" ⟨128, 128, 128, 255⟩ none 7 true 30 (8, 8) =
      Except.error PilError.sizeMismatch :=
  add_background_shadow_err cxFgC "image" ⟨128, 128, 128, 255⟩ none 7 30 (8, 8)

/-- C8: on any reachable editor state, take_screenshot pushes the
pre-mutation capture and RenderConfig onto the undo stack whenever a prior
capture exists (the snapshot records the old capture, not the new one, so
the push happens before replacement), and after any capture action the redo
stack is empty — cleared when a prior capture existed, already empty by the
edit-history invariant when not. -/
theorem take_screenshot_history (s : EditorState) (cap : Raster) (hs : Reachable s) :
    (∀ c : Raster, s.originalImage = some c →
      (take_screenshot cap s).undoStack = ⟨some c, current_config s⟩ :: s.undoStack) ∧
    (take_screenshot cap s).redoStack = [] := by
  constructor
  · intro c hc
    exact take_screenshot_undoStack_some cap s c hc
  · cases horig : s.originalImage with
    | some c => exact take_screenshot_redoStack_some cap s (by rw [horig]; rfl)
    | none =>
      rw [take_screenshot_redoStack_none cap s horig]
      exact (reachable_inv hs).1 horig

/-- C8 witness capture rasters and the state after a first capture. -/
def histCapA : Raster := ⟨1, 1, fun _ _ => ⟨1, 2, 3, 255⟩⟩

/-- Second capture raster for the C8 witness. -/
def histCapB : Raster := ⟨1, 1, fun _ _ => ⟨4, 5, 6, 255⟩⟩

/-- The editor state after one capture from start-up. -/
def histState1 : EditorState := take_screenshot histCapA initialState

/-- C8 witness: the history theorem applied to the concrete reachable state
after one capture, taking a second capture. -/
theorem take_screenshot_history_witness :
    (take_screenshot histCapB histState1).undoStack =
      ⟨some histCapA, current_config histState1⟩ :: histState1.undoStack ∧
    (take_screenshot histCapB histState1).redoStack = [] := by
  have hreach : Reachable histState1 :=
    Reachable.step Reachable.init (Step.capture initialState histCapA)
  have h := take_screenshot_history histState1 histCapB hreach
  exact ⟨h.1 histCapA rfl, h.2⟩

/-- C9: the pipeline is deterministic — two runs of round_image followed by
add_background on the same foreground and configuration yield the same
output raster. -/
theorem pipeline_deterministic (fg : Raster) (cfg : RenderConfig) (o1 o2 : Raster)
    (h1 : PipelineRun fg cfg o1) (h2 : PipelineRun fg cfg o2) : o1 = o2 := by
  cases h1 with
  | run rounded1 out1 hr1 hb1 =>
    cases h2 with
    | run rounded2 out2 hr2 hb2 =>
      subst hr1
      subst hr2
      rw [hb1] at hb2
      exact Except.ok.inj hb2

/-- C9 witness foreground. -/
def detFg : Raster := ⟨1, 1, fun _ _ => ⟨5, 6, 7, 255⟩⟩

/-- C9 witness configuration (shadow disabled so the run completes). -/
def detCfg : RenderConfig :=
  { cornerRadius := 0, padding := 1, bgMode := "color", bgColor := ⟨9, 9, 9, 255⟩,
    bgImage := none, shadowEnabled := false, shadowOpacity := 30 }

/-- The C9 witness output, written via background_layer. -/
def detOutA : Raster := paste_masked (background_layer "color" ⟨9, 9, 9, 255⟩ none 3 3) detFg 1 1

/-- The C9 witness output, written via the solid fill directly. -/
def detOutB : Raster := paste_masked (imageNew 3 3 ⟨9, 9, 9, 255⟩) detFg 1 1

/-- C9 witness: two independently constructed runs of the pipeline on the
same concrete input are forced to the same output raster. -/
theorem pipeline_deterministic_witness : detOutA = detOutB :=
  pipeline_deterministic detFg detCfg detOutA detOutB
    (PipelineRun.run detFg detOutA rfl rfl)
    (PipelineRun.run detFg detOutB rfl rfl)

/-- C10: with no active capture (original_image is None), apply_effects
returns at src lines 396-397 without running any pipeline stage: the state,
including the stored final image, is unchanged. -/
theorem apply_effects_no_capture_noop (s : EditorState) (h : s.originalImage = none) :
    apply_effects s = s := by
  unfold apply_effects
  rw [h]

/-- C10 witness: the no-op theorem applied at the concrete start-up state,
which has no capture. -/
theorem apply_effects_no_capture_noop_witness :
    initialState.originalImage = none ∧ apply_effects initialState = initialState :=
  ⟨rfl, apply_effects_no_capture_noop initialState rfl⟩
